import Mathlib

/-!
Verification development for the download-orchestration and sidecar-client
code of this repository.

The definitions below are shallow embeddings of the TypeScript sources:
  - `src/shared/clients/mdeEnvironmentClient.ts` (sidecar environment client)
  - `src/s3/commands/downloadFileAs.ts` (single-file and folder downloads)
External collaborators (the HTTP library, the process environment, the file
system, the object-store stream) are modelled as explicit parameters.
-/

/-! ## Sidecar environment client (`mdeEnvironmentClient.ts`) -/

def ENVIRONMENT_ARN_KEY : String := "__ENVIRONMENT_ARN"

def MDE_ENVIRONMENT_ENDPOINT : String := "http://127.0.0.1:1339"

/-- `export type Status = 'PENDING' | 'STABLE' | 'CHANGED'` -/
inductive Status where
  | PENDING
  | STABLE
  | CHANGED
deriving DecidableEq, Repr

/-- `StartDevfileRequest` from `mdeEnvironmentClient.ts`. -/
structure StartDevfileRequest where
  location : Option String
  recreateHomeVolumes : Option Bool
deriving DecidableEq, Repr

/-- `CreateDevfileRequest` from `mdeEnvironmentClient.ts`. -/
structure CreateDevfileRequest where
  path : Option String
deriving DecidableEq, Repr

/-- `CreateDevfileResponse` from `mdeEnvironmentClient.ts`. -/
structure CreateDevfileResponse where
  location : Option String
deriving DecidableEq, Repr

/-- `GetStatusResponse` from `mdeEnvironmentClient.ts`. -/
structure GetStatusResponse where
  actionId : Option String
  message : Option String
  status : Option Status
deriving DecidableEq, Repr

inductive HttpMethod where
  | get
  | post
deriving DecidableEq, Repr

/-- The JSON bodies the client sends (via the `json` option of `got`). -/
inductive RequestBody where
  | start (r : StartDevfileRequest)
  | create (r : CreateDevfileRequest)
deriving DecidableEq, Repr

/-- A wire request as issued through the `got` HTTP library. -/
structure HttpRequest where
  method : HttpMethod
  url : String
  body : Option RequestBody
deriving DecidableEq, Repr

/-- The external `got` HTTP library, modelled as an oracle giving the response
body for each call the client makes (the client asserts the response type and
does not validate it, so the oracle is typed per call site). -/
structure HttpResponder where
  onPostStart : String → StartDevfileRequest → Unit
  onPostCreate : String → CreateDevfileRequest → CreateDevfileResponse
  onGetStatus : String → GetStatusResponse

/-- `DefaultMdeEnvironmentClient.startDevfile`: POSTs the request as JSON to
`endpoint ++ "/start"` and ignores the response body. Returns the result
paired with the wire request issued. -/
def startDevfile (http : HttpResponder) (endpoint : String) (r : StartDevfileRequest) :
    Unit × HttpRequest :=
  (http.onPostStart (endpoint ++ "/start") r,
   { method := .post, url := endpoint ++ "/start", body := some (.start r) })

/-- `DefaultMdeEnvironmentClient.createDevfile`: POSTs the request as JSON to
`endpoint ++ "/devfile/create"` and returns `response.body`. Returns the result
paired with the wire request issued. -/
def createDevfile (http : HttpResponder) (endpoint : String) (r : CreateDevfileRequest) :
    CreateDevfileResponse × HttpRequest :=
  (http.onPostCreate (endpoint ++ "/devfile/create") r,
   { method := .post, url := endpoint ++ "/devfile/create", body := some (.create r) })

/-- `DefaultMdeEnvironmentClient.getStatus`: GETs `endpoint ++ "/status"` and
returns `response.body`. Returns the result paired with the wire request. -/
def getStatus (http : HttpResponder) (endpoint : String) : GetStatusResponse × HttpRequest :=
  (http.onGetStatus (endpoint ++ "/status"),
   { method := .get, url := endpoint ++ "/status", body := none })

/-- `DefaultMdeEnvironmentClient.arn` getter: reads
`process.env[ENVIRONMENT_ARN_KEY]` raw. The process environment is modelled as
a map from variable names to `Option String` (`none` = unset). -/
def arn (env : String → Option String) : Option String :=
  env ENVIRONMENT_ARN_KEY

/-- JavaScript truthiness of a `string | undefined` value: `undefined` and the
empty string are falsy, every other string is truthy. -/
def jsTruthyString : Option String → Bool
  | none => false
  | some s => s != ""

/-- `getEnvArn`: `env.__ENVIRONMENT_ARN ? (env.__ENVIRONMENT_ARN as string) : undefined`. -/
def getEnvArn (env : String → Option String) : Option String :=
  if jsTruthyString (env "__ENVIRONMENT_ARN") then env "__ENVIRONMENT_ARN" else none

/-- C9: the sidecar environment client targets exactly the three documented
endpoints on the fixed loopback endpoint: `startDevfile` POSTs the
`{location, recreateHomeVolumes}` body as JSON to `/start`; `createDevfile`
POSTs the `{path}` body as JSON to `/devfile/create` and returns the response
body of shape `{location}`; `getStatus` GETs `/status` and returns the
response body of shape `{actionId, message, status}` with status ranging over
PENDING, STABLE, CHANGED. -/
theorem c9_mde_client_endpoints (http : HttpResponder) (rs : StartDevfileRequest)
    (rc : CreateDevfileRequest) :
    (startDevfile http MDE_ENVIRONMENT_ENDPOINT rs).2 =
        { method := .post, url := "http://127.0.0.1:1339/start", body := some (.start rs) }
      ∧ (createDevfile http MDE_ENVIRONMENT_ENDPOINT rc).2 =
        { method := .post, url := "http://127.0.0.1:1339/devfile/create",
          body := some (.create rc) }
      ∧ (createDevfile http MDE_ENVIRONMENT_ENDPOINT rc).1 =
        http.onPostCreate "http://127.0.0.1:1339/devfile/create" rc
      ∧ (getStatus http MDE_ENVIRONMENT_ENDPOINT).2 =
        { method := .get, url := "http://127.0.0.1:1339/status", body := none }
      ∧ (getStatus http MDE_ENVIRONMENT_ENDPOINT).1 =
        http.onGetStatus "http://127.0.0.1:1339/status"
      ∧ (∀ s : Status, s = .PENDING ∨ s = .STABLE ∨ s = .CHANGED) := by
  refine ⟨rfl, rfl, rfl, rfl, rfl, ?_⟩
  intro s
  cases s
  · exact Or.inl rfl
  · exact Or.inr (Or.inl rfl)
  · exact Or.inr (Or.inr rfl)

/-- C10: `getEnvArn` returns `none` exactly when the `__ENVIRONMENT_ARN`
process environment variable is unset or the empty string, and otherwise
returns the variable value; in particular an empty-string ARN is reported as
absent, whereas the `DefaultMdeEnvironmentClient.arn` getter returns the raw
value of the same variable, including the empty string. -/
theorem c10_getEnvArn_vs_arn (env : String → Option String) :
    (getEnvArn env = none ↔
        env "__ENVIRONMENT_ARN" = none ∨ env "__ENVIRONMENT_ARN" = some "")
      ∧ (∀ s : String, env "__ENVIRONMENT_ARN" = some s → s ≠ "" →
          getEnvArn env = some s)
      ∧ arn env = env "__ENVIRONMENT_ARN"
      ∧ arn (fun k => if k = "__ENVIRONMENT_ARN" then some "" else none) = some ""
      ∧ getEnvArn (fun k => if k = "__ENVIRONMENT_ARN" then some "" else none) = none := by
  refine ⟨?_, ?_, rfl, rfl, rfl⟩
  · unfold getEnvArn jsTruthyString
    cases h : env "__ENVIRONMENT_ARN" with
    | none => simp [h]
    | some s =>
      simp only [h]
      by_cases hs : s = ""
      · simp [hs]
      · simp [hs]
  · intro s hs hne
    unfold getEnvArn jsTruthyString
    simp [hs, hne]

/-- Closed instance of `c10_getEnvArn_vs_arn` at a concrete environment. -/
theorem c10_getEnvArn_vs_arn_witness :
    ((fun _ : String => some "arn:aws:mde:env/123") "__ENVIRONMENT_ARN" = some "arn:aws:mde:env/123")
      ∧ getEnvArn (fun _ => some "arn:aws:mde:env/123") = some "arn:aws:mde:env/123" := by
  refine ⟨rfl, ?_⟩
  exact (c10_getEnvArn_vs_arn (fun _ => some "arn:aws:mde:env/123")).2.1
    "arn:aws:mde:env/123" rfl (by decide)

/-! ## S3 data model (`downloadFileAs.ts`) -/

/-- An S3 bucket, as carried on an `S3File` (`file.bucket`). -/
structure Bucket where
  name : String
  region : String
deriving DecidableEq, Repr

/-- `S3File` from the file viewer manager: a listed object plus its bucket.
`sizeBytes` is the advisory size hint from the listing. -/
structure S3File where
  bucket : Bucket
  key : String
  name : String
  sizeBytes : Option Nat
deriving DecidableEq, Repr

/-- The diagnostic context attached by `downloadFile` on failure:
`details: { bucket: file.bucket, path: file.key, destination: options?.saveLocation?.path }`. -/
structure ErrorDetails where
  bucket : Bucket
  path : String
  destination : Option String
deriving DecidableEq, Repr

/-- The error kinds of the download subsystem. `cancellation agent` is
`CancellationError(agent)` from `timeoutUtils`; `chain cause message details`
is `ToolkitError.chain(cause, message, { details })`.

Modelled from the spec: `CancellationError` and `ToolkitError` live in
`shared/utilities/timeoutUtils.ts` and `shared/errors.ts`, which are not under
src/; the spec describes them as a distinguishable cancellation error carrying
the cancelling agent, and a download error wrapping the underlying cause plus
diagnostic context. -/
inductive S3Error where
  | cancellation (agent : String)
  | chain (cause : S3Error) (message : String) (details : ErrorDetails)
deriving DecidableEq, Repr

/-- One observable event on the download stream: either a data chunk arrives,
or the cancellation token fires with the given agent at that point in time. -/
inductive StreamEvent where
  | chunk (bytes : List Nat)
  | cancel (agent : String)
deriving DecidableEq, Repr

/-- Outcome of consuming the stream: the chunks delivered to the sink (or the
error the stream was destroyed with), and whether `destroy` was called. -/
structure StreamRun where
  outcome : Except S3Error (List (List Nat))
  destroyed : Bool
deriving Repr

/-- Modelled from the spec: the Stream Sink (`streamToFile` / `streamToBuffer`
in `shared/utilities/streamUtilities.ts`, not under src/) consumes the byte
stream and exposes a completion signal; destroying the stream with an error
(which `downloadS3File` wires to the cancellation token, line 70) makes that
completion signal fail with the error. `hasToken` is whether a cancellation
token was registered on the stream (`options.timeout` supplied). -/
def runStream (hasToken : Bool) : List StreamEvent → StreamRun
  | [] => { outcome := .ok [], destroyed := false }
  | .chunk c :: rest =>
      { outcome := (runStream hasToken rest).outcome.map (fun cs => c :: cs),
        destroyed := (runStream hasToken rest).destroyed }
  | .cancel agent :: rest =>
      if hasToken then { outcome := .error (.cancellation agent), destroyed := true }
      else runStream hasToken rest

/-- The data chunks carried by an event sequence, in order. -/
def dataChunks : List StreamEvent → List (List Nat)
  | [] => []
  | .chunk c :: rest => c :: dataChunks rest
  | .cancel _ :: rest => dataChunks rest

/-- The agent of the first cancellation event, if any. -/
def firstCancel : List StreamEvent → Option String
  | [] => none
  | .chunk _ :: rest => firstCancel rest
  | .cancel a :: _ => some a

theorem runStream_no_cancel (hasToken : Bool) (events : List StreamEvent)
    (h : firstCancel events = none) :
    runStream hasToken events = { outcome := .ok (dataChunks events), destroyed := false } := by
  induction events with
  | nil => rfl
  | cons e rest ih =>
    cases e with
    | chunk c =>
      have hr : firstCancel rest = none := h
      rw [runStream, ih hr, dataChunks]
      simp [Except.map]
    | cancel a => exact absurd h (by simp [firstCancel])

theorem runStream_cancelled (events : List StreamEvent) (a : String)
    (h : firstCancel events = some a) :
    runStream true events = { outcome := .error (.cancellation a), destroyed := true } := by
  induction events with
  | nil => exact absurd h (by simp [firstCancel])
  | cons e rest ih =>
    cases e with
    | chunk c =>
      have hr : firstCancel rest = some a := h
      rw [runStream, ih hr]
      simp [Except.map]
    | cancel b =>
      have hb : b = a := by simpa [firstCancel] using h
      subst hb
      simp [runStream]

/-! ## Stream-to-buffer sink (buffer mode) -/

/-- Modelled from the spec: buffer mode pre-sizes its buffer from the size
hint; when the accumulated content would exceed the current buffer, the buffer
grows (zero-filled) to the required size rather than truncating or
overflowing. -/
def growBuffer (buf : List Nat) (required : Nat) : List Nat :=
  if buf.length < required then buf ++ List.replicate (required - buf.length) 0 else buf

/-- Write one chunk at the current offset into the (grown) buffer, returning
the new buffer and the new offset. -/
def writeChunk (buf : List Nat) (offset : Nat) (chunk : List Nat) : List Nat × Nat :=
  ((growBuffer buf (offset + chunk.length)).take offset ++ chunk
      ++ (growBuffer buf (offset + chunk.length)).drop (offset + chunk.length),
   offset + chunk.length)

/-- Modelled from the spec: `streamToBuffer` (in
`shared/utilities/streamUtilities.ts`, not under src/) accumulates the full
stream into memory, pre-sized using `sizeBytes` as a hint (not a hard cap),
and returns exactly the bytes received. -/
def streamToBuffer (chunks : List (List Nat)) (sizeBytes : Option Nat) : List Nat :=
  (chunks.foldl (fun st c => writeChunk st.1 st.2 c)
      (List.replicate (sizeBytes.getD 0) 0, 0)).1.take
    (chunks.foldl (fun st c => writeChunk st.1 st.2 c)
      (List.replicate (sizeBytes.getD 0) 0, 0)).2

theorem le_length_growBuffer (buf : List Nat) (required : Nat) :
    required ≤ (growBuffer buf required).length := by
  unfold growBuffer
  split
  · next hlt =>
    simp only [List.length_append, List.length_replicate]
    omega
  · next hnlt => omega

theorem growBuffer_take (buf : List Nat) (required offset : Nat) (h : offset ≤ buf.length) :
    (growBuffer buf required).take offset = buf.take offset := by
  unfold growBuffer
  split
  · exact List.take_append_of_le_length h
  · rfl

theorem writeChunk_spec (buf : List Nat) (offset : Nat) (chunk : List Nat)
    (h : offset ≤ buf.length) :
    (writeChunk buf offset chunk).2 ≤ (writeChunk buf offset chunk).1.length
      ∧ (writeChunk buf offset chunk).1.take (writeChunk buf offset chunk).2
        = buf.take offset ++ chunk := by
  have hglen := le_length_growBuffer buf (offset + chunk.length)
  have hoff : offset ≤ (growBuffer buf (offset + chunk.length)).length :=
    le_trans (Nat.le_add_right _ _) hglen
  have hAlen : ((growBuffer buf (offset + chunk.length)).take offset ++ chunk).length
      = offset + chunk.length := by
    rw [List.length_append, List.length_take, Nat.min_eq_left hoff]
  constructor
  · show offset + chunk.length
        ≤ ((growBuffer buf (offset + chunk.length)).take offset ++ chunk
            ++ (growBuffer buf (offset + chunk.length)).drop (offset + chunk.length)).length
    rw [List.length_append, hAlen]
    omega
  · show ((growBuffer buf (offset + chunk.length)).take offset ++ chunk
        ++ (growBuffer buf (offset + chunk.length)).drop (offset + chunk.length)).take
          (offset + chunk.length)
      = buf.take offset ++ chunk
    rw [List.take_left' hAlen, growBuffer_take buf _ offset h]

theorem foldl_writeChunk_spec (chunks : List (List Nat)) :
    ∀ (buf : List Nat) (offset : Nat), offset ≤ buf.length →
      (chunks.foldl (fun st c => writeChunk st.1 st.2 c) (buf, offset)).2
          ≤ (chunks.foldl (fun st c => writeChunk st.1 st.2 c) (buf, offset)).1.length
        ∧ (chunks.foldl (fun st c => writeChunk st.1 st.2 c) (buf, offset)).1.take
            (chunks.foldl (fun st c => writeChunk st.1 st.2 c) (buf, offset)).2
          = buf.take offset ++ chunks.flatten := by
  induction chunks with
  | nil =>
    intro buf offset h
    refine ⟨h, ?_⟩
    simp
  | cons c rest ih =>
    intro buf offset h
    simp only [List.foldl_cons]
    have hw := writeChunk_spec buf offset c h
    have hstep := ih (writeChunk buf offset c).1 (writeChunk buf offset c).2 hw.1
    refine ⟨hstep.1, ?_⟩
    rw [hstep.2, hw.2, List.flatten_cons, List.append_assoc]

theorem streamToBuffer_eq_flatten (chunks : List (List Nat)) (sizeBytes : Option Nat) :
    streamToBuffer chunks sizeBytes = chunks.flatten := by
  unfold streamToBuffer
  have h := foldl_writeChunk_spec chunks (List.replicate (sizeBytes.getD 0) 0) 0 (Nat.zero_le _)
  rw [h.2]
  simp

/-! ## Single-file download orchestrator (`downloadS3File`, `downloadFile`) -/

/-- The options of a single download relevant to its result: `saveLocation`
(file mode if present, buffer mode otherwise) and whether a cancellable
`timeout` was supplied. -/
structure DownloadOptions where
  saveLocation : Option String
  hasTimeout : Bool
deriving DecidableEq, Repr

/-- Result of `downloadS3File`: a `Buffer` in buffer mode, or the bytes
written to the save location in file mode. -/
inductive DownloadResult where
  | buffer (bytes : List Nat)
  | file (path : String) (bytes : List Nat)
deriving DecidableEq, Repr

/-- `downloadS3File` (lines 60 to 91): opens the download stream, sends it to
`streamToFile` when a save location is given and to
`streamToBuffer(stream, file.sizeBytes)` otherwise, and registers the timeout
cancellation token to destroy the stream with `CancellationError(agent)`.
The events of the stream are an explicit parameter. -/
def downloadS3File (file : S3File) (options : DownloadOptions)
    (events : List StreamEvent) : Except S3Error DownloadResult :=
  match (runStream options.hasTimeout events).outcome with
  | .error e => .error e
  | .ok chunks =>
      match options.saveLocation with
      | some p => .ok (.file p chunks.flatten)
      | none => .ok (.buffer (streamToBuffer chunks file.sizeBytes))

/-- `downloadFile` (lines 93 to 105): runs `downloadS3File` and, on failure,
rethrows `ToolkitError.chain(err, message, { details: { bucket, path, destination } })`. -/
def downloadFile (file : S3File) (options : DownloadOptions)
    (events : List StreamEvent) : Except S3Error DownloadResult :=
  match downloadS3File file options events with
  | .ok r => .ok r
  | .error err =>
      .error (.chain err ("Failed to download file " ++ file.name)
        { bucket := file.bucket, path := file.key, destination := options.saveLocation })

/-- Concrete fixture files used by witnesses and counterexample evaluations. -/
def fileA : S3File :=
  { bucket := { name := "bkt", region := "us-east-1" },
    key := "folder/A.txt", name := "A.txt", sizeBytes := some 3 }

def fileB : S3File :=
  { bucket := { name := "bkt", region := "us-east-1" },
    key := "folder/B.txt", name := "B.txt", sizeBytes := some 4 }

def fileC : S3File :=
  { bucket := { name := "bkt", region := "us-east-1" },
    key := "folder/C.txt", name := "C.txt", sizeBytes := some 5 }

/-- Claim C5: for every single-file download with a cancellation token
supplied, if cancellation fires while the stream is in flight, the stream is
destroyed at that moment and the operation fails with a `CancellationError`
carrying the cancelling agent, never returning a partial result as a
success. -/
theorem c5_cancellation_propagates (file : S3File) (options : DownloadOptions)
    (events : List StreamEvent) (a : String)
    (htok : options.hasTimeout = true) (hc : firstCancel events = some a) :
    downloadS3File file options events = .error (.cancellation a)
      ∧ (runStream options.hasTimeout events).destroyed = true
      ∧ ∀ r, downloadS3File file options events ≠ .ok r := by
  have h := runStream_cancelled events a hc
  refine ⟨?_, ?_, ?_⟩
  · unfold downloadS3File
    rw [htok, h]
  · rw [htok, h]
  · intro r hr
    unfold downloadS3File at hr
    rw [htok, h] at hr
    exact Except.noConfusion hr

/-- Closed instance of `c5_cancellation_propagates`: a chunk arrives, then the
user cancels mid-stream. -/
theorem c5_cancellation_propagates_witness :
    ({ saveLocation := some "/tmp/A.txt", hasTimeout := true } : DownloadOptions).hasTimeout = true
      ∧ firstCancel [StreamEvent.chunk [1, 2], StreamEvent.cancel "user"] = some "user"
      ∧ (downloadS3File fileA { saveLocation := some "/tmp/A.txt", hasTimeout := true }
            [StreamEvent.chunk [1, 2], StreamEvent.cancel "user"]
          = .error (.cancellation "user")
        ∧ (runStream
            ({ saveLocation := some "/tmp/A.txt", hasTimeout := true } : DownloadOptions).hasTimeout
            [StreamEvent.chunk [1, 2], StreamEvent.cancel "user"]).destroyed = true
        ∧ ∀ r, downloadS3File fileA { saveLocation := some "/tmp/A.txt", hasTimeout := true }
            [StreamEvent.chunk [1, 2], StreamEvent.cancel "user"] ≠ .ok r) :=
  ⟨rfl, rfl,
   c5_cancellation_propagates fileA { saveLocation := some "/tmp/A.txt", hasTimeout := true }
     [StreamEvent.chunk [1, 2], StreamEvent.cancel "user"] "user" rfl rfl⟩

/-- Claim C6: on every input on which the single-file download operation
fails, `downloadFile` fails with a download error that wraps the underlying
cause together with diagnostic context consisting of the bucket, the object
key, and, when a file destination was given, the destination path. -/
theorem c6_download_error_context (file : S3File) (options : DownloadOptions)
    (events : List StreamEvent) (e : S3Error)
    (h : downloadS3File file options events = .error e) :
    downloadFile file options events =
      .error (.chain e ("Failed to download file " ++ file.name)
        { bucket := file.bucket, path := file.key, destination := options.saveLocation }) := by
  unfold downloadFile
  rw [h]

/-- Closed instance of `c6_download_error_context`: a timeout cancellation
makes `downloadFile` fail wrapped with the bucket, key and destination. -/
theorem c6_download_error_context_witness :
    downloadS3File fileA { saveLocation := some "/tmp/A.txt", hasTimeout := true }
        [StreamEvent.cancel "timeout-1"] = .error (.cancellation "timeout-1")
      ∧ downloadFile fileA { saveLocation := some "/tmp/A.txt", hasTimeout := true }
          [StreamEvent.cancel "timeout-1"] =
        .error (.chain (.cancellation "timeout-1") ("Failed to download file " ++ fileA.name)
          { bucket := fileA.bucket, path := fileA.key, destination := some "/tmp/A.txt" }) :=
  ⟨rfl,
   c6_download_error_context fileA { saveLocation := some "/tmp/A.txt", hasTimeout := true }
     [StreamEvent.cancel "timeout-1"] (.cancellation "timeout-1") rfl⟩

/-- Claim C8: for every source stream, downloading in buffer mode (no save
location) yields a buffer containing exactly the bytes produced by the
stream, regardless of whether the `sizeBytes` hint matches the actual byte
count. -/
theorem c8_buffer_roundtrip (file : S3File) (options : DownloadOptions)
    (events : List StreamEvent)
    (hbuf : options.saveLocation = none) (hnc : firstCancel events = none) :
    downloadS3File file options events = .ok (.buffer (dataChunks events).flatten)
      ∧ ∀ hint : Option Nat,
          downloadS3File { file with sizeBytes := hint } options events
            = .ok (.buffer (dataChunks events).flatten) := by
  have h := runStream_no_cancel options.hasTimeout events hnc
  constructor
  · unfold downloadS3File
    rw [h, hbuf]
    simp [streamToBuffer_eq_flatten]
  · intro hint
    unfold downloadS3File
    rw [h, hbuf]
    simp [streamToBuffer_eq_flatten]

/-- Closed instance of `c8_buffer_roundtrip`: two chunks, a size hint (3) that
does not match the actual byte count (5); the buffer is exactly the stream
bytes. -/
theorem c8_buffer_roundtrip_witness :
    ({ saveLocation := none, hasTimeout := false } : DownloadOptions).saveLocation = none
      ∧ firstCancel [StreamEvent.chunk [10, 11], StreamEvent.chunk [12, 13, 14]] = none
      ∧ (downloadS3File fileA { saveLocation := none, hasTimeout := false }
            [StreamEvent.chunk [10, 11], StreamEvent.chunk [12, 13, 14]]
          = .ok (.buffer (dataChunks
              [StreamEvent.chunk [10, 11], StreamEvent.chunk [12, 13, 14]]).flatten)
        ∧ ∀ hint : Option Nat,
            downloadS3File { fileA with sizeBytes := hint }
                { saveLocation := none, hasTimeout := false }
                [StreamEvent.chunk [10, 11], StreamEvent.chunk [12, 13, 14]]
              = .ok (.buffer (dataChunks
                  [StreamEvent.chunk [10, 11], StreamEvent.chunk [12, 13, 14]]).flatten)) :=
  ⟨rfl, rfl,
   c8_buffer_roundtrip fileA { saveLocation := none, hasTimeout := false }
     [StreamEvent.chunk [10, 11], StreamEvent.chunk [12, 13, 14]] rfl rfl⟩

/-! ## Progress reporter -/

/-- Modelled from the spec: the Progress Reporter (`s3/progressReporter.ts`,
not under src/) converts the running total of bytes received into a
percentage against the total-bytes hint, clamped to the interval from 0 to
100. -/
def reportPercent (totalBytes : Nat) (loadedBytes : Nat) : Nat :=
  min 100 (loadedBytes * 100 / totalBytes)

/-- The running totals of bytes received after each delta, starting from
`acc` bytes already received. -/
def runningTotals : List Nat → Nat → List Nat
  | [], _ => []
  | d :: rest, acc => (acc + d) :: runningTotals rest (acc + d)

/-- Modelled from the spec: the reporter created with a total-bytes hint
tracks a running total and, on each received-byte delta, reports the clamped
percentage of the new total against the hint. Returns the sequence of
reported percentages. -/
def progressReporter (totalBytes : Nat) (deltas : List Nat) : List Nat :=
  (runningTotals deltas 0).map (reportPercent totalBytes)

theorem runningTotals_chain (deltas : List Nat) :
    ∀ acc : Nat, List.Chain' (· ≤ ·) (runningTotals deltas acc)
      ∧ ∀ x ∈ runningTotals deltas acc, acc ≤ x := by
  induction deltas with
  | nil => intro acc; exact ⟨List.chain'_nil, by intro x hx; simp [runningTotals] at hx⟩
  | cons d rest ih =>
    intro acc
    constructor
    · rw [runningTotals]
      refine List.chain'_cons'.mpr ⟨?_, (ih (acc + d)).1⟩
      intro b hb
      exact (ih (acc + d)).2 b (List.mem_of_mem_head? hb)
    · intro x hx
      rw [runningTotals] at hx
      rcases List.mem_cons.mp hx with h | h
      · omega
      · have := (ih (acc + d)).2 x h
        omega

theorem runningTotals_getLast? (deltas : List Nat) :
    ∀ acc : Nat, deltas ≠ [] →
      (runningTotals deltas acc).getLast? = some (acc + deltas.sum) := by
  induction deltas with
  | nil => intro acc h; exact absurd rfl h
  | cons d rest ih =>
    intro acc _
    cases rest with
    | nil => simp [runningTotals]
    | cons d2 r2 =>
      have h2 := ih (acc + d) (by simp)
      rw [show runningTotals (d2 :: r2) (acc + d)
            = (acc + d + d2) :: runningTotals r2 (acc + d + d2) from rfl] at h2
      rw [show runningTotals (d :: d2 :: r2) acc
            = (acc + d) :: (acc + d + d2) :: runningTotals r2 (acc + d + d2) from rfl]
      rw [List.getLast?_cons_cons, h2]
      simp only [List.sum_cons, Option.some.injEq]
      omega

theorem reportPercent_mono (totalBytes : Nat) {a b : Nat} (h : a ≤ b) :
    reportPercent totalBytes a ≤ reportPercent totalBytes b :=
  min_le_min le_rfl (Nat.div_le_div_right (Nat.mul_le_mul_right 100 h))

theorem reportPercent_cap (totalBytes s : Nat) (hpos : 0 < totalBytes)
    (h : totalBytes ≤ s) : reportPercent totalBytes s = 100 := by
  have h100 : 100 ≤ s * 100 / totalBytes := by
    rw [Nat.le_div_iff_mul_le hpos]
    calc 100 * totalBytes = totalBytes * 100 := Nat.mul_comm _ _
      _ ≤ s * 100 := Nat.mul_le_mul_right 100 h
  exact min_eq_left h100

/-- Claim C7: for every sequence of byte-count deltas fed to a progress
reporter created with a total-bytes hint, the reported percentages are
monotonically non-decreasing and clamped to the interval from 0 to 100; when
the running total of received bytes exceeds the hint, the percentage caps at
100. -/
theorem c7_progress_monotone_clamped (totalBytes : Nat) (deltas : List Nat)
    (hpos : 0 < totalBytes) :
    List.Chain' (· ≤ ·) (progressReporter totalBytes deltas)
      ∧ (∀ p ∈ progressReporter totalBytes deltas, p ≤ 100)
      ∧ (totalBytes < deltas.sum →
          (progressReporter totalBytes deltas).getLast? = some 100) := by
  refine ⟨?_, ?_, ?_⟩
  · unfold progressReporter
    rw [List.chain'_map]
    exact ((runningTotals_chain deltas 0).1).imp fun a b hab => reportPercent_mono totalBytes hab
  · intro p hp
    unfold progressReporter at hp
    obtain ⟨x, _, rfl⟩ := List.mem_map.mp hp
    exact min_le_left _ _
  · intro hlt
    have hne : deltas ≠ [] := by
      intro hnil
      rw [hnil] at hlt
      simp at hlt
    unfold progressReporter
    rw [List.getLast?_map, runningTotals_getLast? deltas 0 hne]
    have hcap : reportPercent totalBytes deltas.sum = 100 :=
      reportPercent_cap _ _ hpos (le_of_lt hlt)
    simp [hcap]

/-- Closed instance of `c7_progress_monotone_clamped`: hint 10 bytes, deltas
6 and 7 (total 13, exceeding the hint). -/
theorem c7_progress_monotone_clamped_witness :
    0 < 10
      ∧ (List.Chain' (· ≤ ·) (progressReporter 10 [6, 7])
        ∧ (∀ p ∈ progressReporter 10 [6, 7], p ≤ 100)
        ∧ ((10 : Nat) < ([6, 7] : List Nat).sum →
            (progressReporter 10 [6, 7]).getLast? = some 100)) :=
  ⟨by decide, c7_progress_monotone_clamped 10 [6, 7] (by decide)⟩

/-! ## Folder download manager (`S3DownloadFilesManager`, lines 169 to 226) -/

/-- The mutable session state of `S3DownloadFilesManager`:
`public totalDownloaded = 0` and `private failedToDownload: S3File[] = []`. -/
structure SessionState where
  totalDownloaded : Nat
  failedToDownload : List S3File
deriving DecidableEq, Repr

/-- Lines 190 to 197 of `downloadAll`: when a folder name is present, the
manager joins it onto the chosen save location; if that directory does not
exist it is created and `savePath` is set to it; if it already exists
(`fs.existsSync(dir)` true) both the creation and the `savePath = dir`
assignment are skipped. The file system is modelled as the list of existing
directories, `path.join` as slash concatenation. Returns the resulting save
path and the directories afterwards. -/
def resolveSavePath (existingDirs : List String) (saveLocation : String)
    (folderName : Option String) : String × List String :=
  match folderName with
  | none => (saveLocation, existingDirs)
  | some name =>
      if (saveLocation ++ "/" ++ name) ∈ existingDirs then (saveLocation, existingDirs)
      else (saveLocation ++ "/" ++ name, (saveLocation ++ "/" ++ name) :: existingDirs)

/-- Lines 199 to 210, once every spawned per-file attempt has settled: each
callback ran `try { await downloadFile(...) } catch { failedToDownload.push(file) }`,
so a failing file is appended to `failedToDownload` and a succeeding file
changes nothing (in particular `totalDownloaded` is never modified anywhere
in the class). `fails f` says whether the download of `f` fails. -/
def settleAll (fileList : List S3File) (fails : S3File → Bool) : SessionState :=
  fileList.foldl
    (fun st f =>
      if fails f then { st with failedToDownload := st.failedToDownload ++ [f] } else st)
    { totalDownloaded := 0, failedToDownload := [] }

/-- Everything observable about one run of `downloadAll` on the success path:
the save path used, the directories existing afterwards, the spawned per-file
downloads with their target paths, and the session state once every spawned
attempt has settled. -/
structure BatchRun where
  savePath : String
  dirs : List String
  targets : List (S3File × String)
  settled : SessionState
deriving DecidableEq, Repr

/-- `S3DownloadFilesManager.downloadAll` (lines 183 to 211): prompts for a
save folder and throws `CancellationError("user")` when none is chosen;
resolves the save path via the folder-name logic; then fires one
`downloadFile` per listed file at `path.join(savePath, file.name)`.
`promptResult` is the outcome of `promptForSaveFolderLocation`. -/
def downloadAll (existingDirs : List String) (promptResult : Option String)
    (folderName : Option String) (fileList : List S3File) (fails : S3File → Bool) :
    Except S3Error BatchRun :=
  match promptResult with
  | none => .error (.cancellation "user")
  | some saveLocation =>
      .ok { savePath := (resolveSavePath existingDirs saveLocation folderName).1
            dirs := (resolveSavePath existingDirs saveLocation folderName).2
            targets := fileList.map fun f =>
              (f, (resolveSavePath existingDirs saveLocation folderName).1 ++ "/" ++ f.name)
            settled := settleAll fileList fails }

theorem settleAll_spec (fileList : List S3File) (fails : S3File → Bool) :
    ∀ st : SessionState,
      (fileList.foldl
          (fun st f =>
            if fails f then { st with failedToDownload := st.failedToDownload ++ [f] } else st)
          st).failedToDownload = st.failedToDownload ++ fileList.filter fails
        ∧ (fileList.foldl
            (fun st f =>
              if fails f then { st with failedToDownload := st.failedToDownload ++ [f] } else st)
            st).totalDownloaded = st.totalDownloaded := by
  induction fileList with
  | nil => intro st; simp
  | cons f rest ih =>
    intro st
    simp only [List.foldl_cons, List.filter_cons]
    by_cases hf : fails f
    · simp only [hf, if_pos rfl, reduceIte]
      refine ⟨?_, (ih _).2⟩
      rw [(ih _).1]
      simp
    · simp only [hf, Bool.false_eq_true, reduceIte]
      exact ih st

theorem settleAll_failed (fileList : List S3File) (fails : S3File → Bool) :
    (settleAll fileList fails).failedToDownload = fileList.filter fails
      ∧ (settleAll fileList fails).totalDownloaded = 0 := by
  have h := settleAll_spec fileList fails { totalDownloaded := 0, failedToDownload := [] }
  unfold settleAll
  simpa using h

/-! ## Asynchronous structure of the batch (forEach fire-and-forget) -/

/-- The suspension and task events of the batch code, in program order:
`awaitListFiles` is the `await folder.s3.listFiles(...)` of
`downloadFolderCommand`; `awaitPrompt` is the
`await promptForSaveFolderLocation()` of `downloadAll`; `spawnDownload f` is
one iteration of `fileList.forEach(async file => ...)`, which creates a
per-file promise that `forEach` discards; `awaitDownload f` would be an await
of such a promise (never emitted by this code); `spawnBatch` is the
un-awaited call `downloadManager.downloadAll()`; `awaitBatch` would be an
await of the promise `downloadAll` returns (never emitted); `resolveSelf` is
the resolution of the promise of the enclosing async function when its body
returns. -/
inductive AsyncOp where
  | awaitListFiles
  | awaitPrompt
  | spawnDownload (f : S3File)
  | awaitDownload (f : S3File)
  | spawnBatch
  | awaitBatch
  | resolveSelf
deriving DecidableEq, Repr

/-- The ordered suspension and task events of `downloadAll` (lines 183 to
211): await the prompt, spawn one discarded per-file promise per listed file,
then return, resolving its own promise. -/
def downloadAllTrace (fileList : List S3File) : List AsyncOp :=
  [AsyncOp.awaitPrompt] ++ fileList.map AsyncOp.spawnDownload ++ [AsyncOp.resolveSelf]

/-- The ordered suspension and task events of `downloadFolderCommand` (lines
214 to 226): await the listing, call `downloadAll()` without awaiting the
returned promise, then return. -/
def downloadFolderCommandTrace (_fileList : List S3File) : List AsyncOp :=
  [AsyncOp.awaitListFiles, AsyncOp.spawnBatch, AsyncOp.resolveSelf]

/-- Claim C1, evaluated at the failing input: for the batch with objects A, B,
C where only B fails, once all per-object attempts have settled the failed
set is exactly the singleton B, but the succeeded counter `totalDownloaded`
is 0, not 2: nothing in `S3DownloadFilesManager` ever increments it. -/
theorem c1_totalDownloaded_stays_zero :
    downloadAll [] (some "root") none [fileA, fileB, fileC] (fun f => decide (f = fileB))
      = .ok { savePath := "root", dirs := [],
              targets := [(fileA, "root/A.txt"), (fileB, "root/B.txt"), (fileC, "root/C.txt")],
              settled := { totalDownloaded := 0, failedToDownload := [fileB] } }
      ∧ (settleAll [fileA, fileB, fileC] (fun f => decide (f = fileB))).totalDownloaded ≠ 2 :=
  ⟨rfl, by decide⟩

/-- Claim C2: for every non-empty file list, `downloadAll` launches one
discarded per-object download per file and resolves its own promise without
ever awaiting any of them, and `downloadFolderCommand` likewise never awaits
the batch promise or any per-object promise, so no caller can observe a point
at which all per-object attempts have settled. -/
theorem c2_downloadAll_fire_and_forget (fileList : List S3File) (h : fileList ≠ []) :
    (∀ f ∈ fileList, AsyncOp.spawnDownload f ∈ downloadAllTrace fileList)
      ∧ (∃ f, AsyncOp.spawnDownload f ∈ downloadAllTrace fileList)
      ∧ (∀ f, AsyncOp.awaitDownload f ∉ downloadAllTrace fileList)
      ∧ (downloadAllTrace fileList).getLast? = some AsyncOp.resolveSelf
      ∧ AsyncOp.spawnBatch ∈ downloadFolderCommandTrace fileList
      ∧ AsyncOp.awaitBatch ∉ downloadFolderCommandTrace fileList
      ∧ (∀ f, AsyncOp.awaitDownload f ∉ downloadFolderCommandTrace fileList) := by
  refine ⟨?_, ?_, ?_, ?_, ?_, ?_, ?_⟩
  · intro f hf
    simp [downloadAllTrace]
    exact hf
  · obtain ⟨f, hf⟩ := List.exists_mem_of_ne_nil fileList h
    refine ⟨f, ?_⟩
    simp [downloadAllTrace]
    exact hf
  · intro f hmem
    simp [downloadAllTrace] at hmem
  · show (downloadAllTrace fileList).getLast? = some AsyncOp.resolveSelf
    unfold downloadAllTrace
    rw [List.cons_append, ← List.cons_append, List.getLast?_concat]
  · show AsyncOp.spawnBatch ∈ downloadFolderCommandTrace fileList
    unfold downloadFolderCommandTrace
    exact List.mem_cons_of_mem _ (List.mem_cons_self _ _)
  · intro hmem
    unfold downloadFolderCommandTrace at hmem
    simp at hmem
  · intro f hmem
    unfold downloadFolderCommandTrace at hmem
    simp at hmem

/-- Closed instance of `c2_downloadAll_fire_and_forget` on a one-file list. -/
theorem c2_downloadAll_fire_and_forget_witness :
    ([fileA] : List S3File) ≠ []
      ∧ ((∀ f ∈ [fileA], AsyncOp.spawnDownload f ∈ downloadAllTrace [fileA])
        ∧ (∃ f, AsyncOp.spawnDownload f ∈ downloadAllTrace [fileA])
        ∧ (∀ f, AsyncOp.awaitDownload f ∉ downloadAllTrace [fileA])
        ∧ (downloadAllTrace [fileA]).getLast? = some AsyncOp.resolveSelf
        ∧ AsyncOp.spawnBatch ∈ downloadFolderCommandTrace [fileA]
        ∧ AsyncOp.awaitBatch ∉ downloadFolderCommandTrace [fileA]
        ∧ (∀ f, AsyncOp.awaitDownload f ∉ downloadFolderCommandTrace [fileA])) :=
  ⟨by simp, c2_downloadAll_fire_and_forget [fileA] (by simp)⟩

/-- Claim C3, evaluated at the failing input: with folder name "sub" and the
directory "root/sub" already existing, the manager skips creation but also
keeps downloading into the destination root ("root/A.txt"), not into the
existing subdirectory; only when the directory is freshly created do the
files land in the subdirectory ("root/sub/A.txt"). -/
theorem c3_existing_subdirectory_not_used :
    downloadAll ["root/sub"] (some "root") (some "sub") [fileA] (fun _ => false)
      = .ok { savePath := "root", dirs := ["root/sub"],
              targets := [(fileA, "root/A.txt")],
              settled := { totalDownloaded := 0, failedToDownload := [] } }
      ∧ downloadAll [] (some "root") (some "sub") [fileA] (fun _ => false)
        = .ok { savePath := "root/sub", dirs := ["root/sub"],
                targets := [(fileA, "root/sub/A.txt")],
                settled := { totalDownloaded := 0, failedToDownload := [] } }
      ∧ "root/A.txt" ≠ "root/sub/A.txt" :=
  ⟨rfl, rfl, by decide⟩

/-- Claim C4: the failure of one object does not abort the downloads of the
remaining objects: every listed file is attempted (appears in the spawned
targets) and exactly the failing files are recorded in the failed set; the
`downloadAll` operation itself fails only when no destination directory is
chosen, and then with `CancellationError("user")`. -/
theorem c4_failure_isolation (existingDirs : List String) (promptResult : Option String)
    (folderName : Option String) (fileList : List S3File) (fails : S3File → Bool) :
    (downloadAll existingDirs promptResult folderName fileList fails
        = .error (.cancellation "user") ↔ promptResult = none)
      ∧ (∀ e, downloadAll existingDirs promptResult folderName fileList fails = .error e →
          e = .cancellation "user")
      ∧ (∀ run, downloadAll existingDirs promptResult folderName fileList fails = .ok run →
          run.targets.map Prod.fst = fileList
            ∧ run.settled.failedToDownload = fileList.filter fails) := by
  cases promptResult with
  | none =>
    refine ⟨by simp [downloadAll], ?_, ?_⟩
    · intro e he
      unfold downloadAll at he
      injection he with h
      exact h.symm
    · intro run hrun
      unfold downloadAll at hrun
      exact Except.noConfusion hrun
  | some saveLocation =>
    refine ⟨?_, ?_, ?_⟩
    · constructor
      · intro hcon
        unfold downloadAll at hcon
        exact Except.noConfusion hcon
      · intro hcon
        exact Option.noConfusion hcon
    · intro e he
      unfold downloadAll at he
      exact Except.noConfusion he
    · intro run hrun
      unfold downloadAll at hrun
      injection hrun with hinj
      subst hinj
      constructor
      · rw [List.map_map]
        have hid : (Prod.fst ∘ fun f : S3File =>
            (f, (resolveSavePath existingDirs saveLocation folderName).1 ++ "/" ++ f.name))
            = id := rfl
        rw [hid, List.map_id]
      · exact (settleAll_failed fileList fails).1

/-- Closed instance of `c4_failure_isolation`: two files of which B fails. -/
theorem c4_failure_isolation_witness :
    (downloadAll [] (some "root") none [fileA, fileB] (fun f => decide (f = fileB))
        = .error (.cancellation "user") ↔ (some "root" : Option String) = none)
      ∧ (∀ e, downloadAll [] (some "root") none [fileA, fileB] (fun f => decide (f = fileB))
            = .error e → e = .cancellation "user")
      ∧ (∀ run, downloadAll [] (some "root") none [fileA, fileB] (fun f => decide (f = fileB))
            = .ok run →
          run.targets.map Prod.fst = [fileA, fileB]
            ∧ run.settled.failedToDownload
              = [fileA, fileB].filter (fun f => decide (f = fileB))) :=
  c4_failure_isolation [] (some "root") none [fileA, fileB] (fun f => decide (f = fileB))
